import Mathlib

/-!
Shallow embedding of the serving core of the legal-document analysis
service (clause classification, NER, risk scoring, summarization, QA,
clause comparison) together with proofs about the claims of its design
spec.

Modelling conventions:
* Python floats are modelled as rationals.
* Python dicts whose keys matter dynamically (notably the result of
  RiskScorer.score_clause, read back with mismatching keys by one route)
  are modelled as association lists of string keys; dicts with a fixed
  field set are modelled as structures.
* The transformer models themselves (tokenizer + network inference) are
  opaque: they enter each definition as parameters (probability vectors,
  logits, raw token entities, or oracle functions returning
  Except String results, where an error models a raised exception).
  Everything downstream of those parameters is translated from the
  source.
* Python string slicing/indexing is code-point based, as is Lean's
  String.toList, so list-of-char arithmetic models it faithfully.
-/

/-- A value stored in a Python dict: a number (rational) or a string. -/
inductive DVal where
  | num (q : ℚ)
  | str (s : String)
deriving DecidableEq, Repr

/-- A Python dict with string keys, modelled as an association list. -/
abbrev PyDict := List (String × DVal)

/-- Python dict.get(key, default). -/
def pyGet (d : PyDict) (k : String) (dflt : DVal) : DVal :=
  (d.lookup k).getD dflt

/-- Numeric reading of a dict value; Python would raise TypeError when
arithmetic meets a non-numeric value, which never happens on the dicts
built by this code. -/
def numOf : DVal → ℚ
  | .num q => q
  | .str _ => 0

/-- Python round(x, n) modelled with Mathlib's round-to-nearest on ℚ
scaled by 10^n (the half-to-even difference never matters to any claim). -/
def pyRound (q : ℚ) (n : Nat) : ℚ :=
  (round (q * (10 : ℚ) ^ n) : ℤ) / (10 : ℚ) ^ n

/-- Python text[a:b] on code points (clamping, empty when b ≤ a). -/
def pySlice (s : String) (a b : Nat) : String :=
  String.mk ((s.toList.drop a).take (b - a))

/-- Python str.strip(): drop whitespace from both ends. -/
def pyStrip (s : String) : String :=
  String.mk (((s.toList.dropWhile Char.isWhitespace).reverse.dropWhile
      Char.isWhitespace).reverse)

/-- Python s.startswith(p), on code points. -/
def pyStartsWith (s p : String) : Bool := p.toList.isPrefixOf s.toList

/-- Python s[n:] on code points. -/
def pyDrop (s : String) (n : Nat) : String := String.mk (s.toList.drop n)

/-- Python str.upper() (ASCII model). -/
def pyUpper (s : String) : String := String.mk (s.toList.map Char.toUpper)

/-- Python str.lower() (ASCII model). -/
def pyLower (s : String) : String := String.mk (s.toList.map Char.toLower)

/-- Python str.isdigit() (ASCII digits; the documents are ASCII-modelled). -/
def pyIsDigit (s : String) : Bool :=
  !s.toList.isEmpty && s.toList.all Char.isDigit

/-- Python "hay" containing "needle" as a substring (the `in` operator). -/
def containsSub (hay needle : String) : Bool :=
  (List.range (hay.toList.length + 1)).any
    (fun i => needle.toList.isPrefixOf (hay.toList.drop i))

/-- Python `x or d` on an optional int field: None and 0 are falsy. -/
def pyOrNat (x : Option Nat) (d : Nat) : Nat :=
  match x with
  | some n => if n = 0 then d else n
  | none => d

/-- torch.argmax on a vector: index of the first maximal entry
(0 on an empty vector, which never occurs for a loaded model). -/
def argmaxAux : List ℚ → Nat → Nat → ℚ → Nat
  | [], _, best, _ => best
  | x :: xs, i, best, bv =>
      if bv < x then argmaxAux xs (i + 1) i x else argmaxAux xs (i + 1) best bv

/-- Index of the first maximal entry of a list of rationals. -/
def argmaxIdx : List ℚ → Nat
  | [] => 0
  | x :: xs => argmaxAux xs 1 0 x

/-! ## RiskScorer (app/services/risk/risk_scorer.py)

The fine-tuned classifier head has NUM_LABELS = 10 outputs
(training/train_risk_scoring.py), so the softmax vector handed to
score_clause has length 10. -/

/-- RiskScorer.risk_levels: the 1..10 severity-name table. -/
def risk_levels : List (Nat × String) :=
  [(1, "Minimal"), (2, "Very Low"), (3, "Low"), (4, "Low-Medium"),
   (5, "Medium"), (6, "Medium-High"), (7, "High"), (8, "Very High"),
   (9, "Critical"), (10, "Severe")]

/-- RiskScorer.score_clause: the model + softmax is opaque, entering as
the probability vector probs; risk_score is argmax + 1 and risk_level is
the risk_levels table entry (a Python KeyError, modelled by the default,
would occur only if the score fell outside 1..10). -/
def score_clause (probs : List ℚ) : PyDict :=
  let risk_score := argmaxIdx probs + 1
  let confidence := probs.getD (risk_score - 1) 0
  [("risk_score", .num risk_score),
   ("risk_level", .str ((risk_levels.lookup risk_score).getD "<KeyError>")),
   ("confidence", .num (pyRound confidence 3))]

/-! ## LegalQA.answer_question (app/services/qa/__init__.py) -/

/-- The opaque QA model output for one (question, context) encoding:
start/end logits plus their softmax images (kept as data because softmax
needs real exponentials; argmax is taken on the logits as in the source). -/
structure QAModelOut where
  start_logits : List ℚ
  end_logits : List ℚ
  start_probs : List ℚ
  end_probs : List ℚ

/-- Fields of the dict returned by LegalQA.answer_question. -/
structure QAOut where
  question : String
  answer : String
  confidence : ℚ
  context_preview : String
  answer_start : Nat
  answer_end : Nat
deriving DecidableEq, Repr

/-- The argmax-and-clamp index selection of answer_question. -/
def qaIndices (start_logits end_logits : List ℚ) (max_answer_length : Nat) :
    Nat × Nat :=
  let start_idx := argmaxIdx start_logits
  let end_idx := argmaxIdx end_logits
  let end_idx := if end_idx < start_idx then start_idx else end_idx
  let end_idx :=
    if max_answer_length < end_idx - start_idx then start_idx + max_answer_length
    else end_idx
  (start_idx, end_idx)

/-- LegalQA.answer_question; decode models
tokenizer.decode(input_ids[start:end+1], skip_special_tokens=True). -/
def answer_question (mo : QAModelOut) (decode : Nat → Nat → String)
    (question : String) (context : String) (max_answer_length : Nat) : QAOut :=
  let p := qaIndices mo.start_logits mo.end_logits max_answer_length
  let start_idx := p.1
  let end_idx := p.2
  let confidence :=
    ((mo.start_probs.getD start_idx 0) + (mo.end_probs.getD end_idx 0)) / 2
  let answer := decode start_idx end_idx
  let noAnswer : Bool := answer = "" || pyLower answer = pyLower question
  let answer := if noAnswer then "[No clear answer found in context]" else answer
  let confidence := if noAnswer then 0 else confidence
  { question := question
    answer := answer
    confidence := pyRound confidence 3
    context_preview :=
      if 150 < context.length then context.take 150 ++ "..." else context
    answer_start := start_idx
    answer_end := end_idx }

/-! ## LegalNER (app/services/ner/legal_ner.py)

The tokenizer/model pipeline that produces raw token-level entities is
opaque; it enters predict as the list entities_raw. Everything from
_merge_subword_entities on is translated from the source. -/

/-- One raw token entity as appended to entities_raw inside predict. -/
structure RawEntity where
  label : String
  start : Nat
  stop : Nat
  text : String
  score : ℚ
deriving DecidableEq, Repr

/-- One merged entity as built by _merge_subword_entities (the dict with
keys text, type, base_label, start, end, score; "end" is `stop` here). -/
structure MergedEntity where
  text : String
  type : String
  base_label : String
  start : Nat
  stop : Nat
  score : ℚ
deriving DecidableEq, Repr

/-- Strip a leading "B-" or "I-" from a label. -/
def baseLabel (l : String) : String :=
  if pyStartsWith l "B-" || pyStartsWith l "I-" then pyDrop l 2 else l

/-- The fresh `current` started from one raw entity. -/
def startEntity (e : RawEntity) : MergedEntity :=
  { text := e.text, type := baseLabel e.label, base_label := baseLabel e.label,
    start := e.start, stop := e.stop, score := e.score }

/-- Absorb a continuation token into `current` (the then-branch of the
merge loop): extend the end offset, re-slice the text from the document,
keep the maximal score. -/
def absorbEntity (text : String) (c : MergedEntity) (e : RawEntity) :
    MergedEntity :=
  { c with
    stop := e.stop
    text := pySlice text c.start e.stop
    score := max c.score e.score }

/-- The loop of _merge_subword_entities, with `current` already set. -/
def mergeLoop (text : String) : MergedEntity → List RawEntity → List MergedEntity
  | c, [] => [c]
  | c, e :: rest =>
      if pyStartsWith e.label "I-" && baseLabel e.label == c.base_label then
        mergeLoop text (absorbEntity text c e) rest
      else
        c :: mergeLoop text (startEntity e) rest

/-- LegalNER._merge_subword_entities. -/
def merge_subword_entities (entities : List RawEntity) (text : String) :
    List MergedEntity :=
  match entities with
  | [] => []
  | e :: rest => mergeLoop text (startEntity e) rest

/-- The run of continuation entities (labels starting with "I-" with the
given base label) at the head of a list, and the remainder. Written from
the claim wording of the spec for comparison with the source function. -/
def takeRun (base : String) : List RawEntity → List RawEntity × List RawEntity
  | [] => ([], [])
  | e :: rest =>
      if pyStartsWith e.label "I-" && baseLabel e.label == base then
        let p := takeRun base rest
        (e :: p.1, p.2)
      else ([], e :: rest)

/-- Decompose a raw entity list into maximal runs: each group is a first
entity together with its continuation run. Written from the claim wording. -/
def groupRuns : List RawEntity → List (RawEntity × List RawEntity)
  | [] => []
  | e :: rest =>
      (e, (takeRun (baseLabel e.label) rest).1)
        :: groupRuns (takeRun (baseLabel e.label) rest).2
termination_by l => l.length
decreasing_by
  simp only [List.length_cons]
  refine Nat.lt_succ_of_le ?_
  generalize baseLabel e.label = base
  induction rest with
  | nil => simp [takeRun]
  | cons x t ih =>
      simp only [takeRun]
      by_cases h : pyStartsWith x.label "I-" && baseLabel x.label == base
      · simp only [h, if_true]
        exact Nat.le_succ_of_le ih
      · simp only [h, if_false]
        exact Nat.le_refl _

/-- End offset of a run: the last continuation entity's end, or the first
entity's end when the run is empty. -/
def runStop (first : RawEntity) (run : List RawEntity) : Nat :=
  ((run.getLast?).map (fun e => e.stop)).getD first.stop

/-- Maximum score over a run (first entity included). -/
def runScore (first : RawEntity) (run : List RawEntity) : ℚ :=
  run.foldl (fun a e => max a e.score) first.score

/-- The merged entity the claim describes for one maximal run: spans from
the first entity's start to the last entity's end, text is the document
sliced at that span, score is the run maximum. -/
def claimedRunEntity (text : String) (first : RawEntity)
    (run : List RawEntity) : MergedEntity :=
  { text := pySlice text first.start (runStop first run)
    type := baseLabel first.label
    base_label := baseLabel first.label
    start := first.start
    stop := runStop first run
    score := runScore first run }

/-- The claim's description of _merge_subword_entities, word for word:
every maximal run becomes one merged entity whose text is the document
slice. -/
def claimed_merge (entities : List RawEntity) (text : String) :
    List MergedEntity :=
  (groupRuns entities).map (fun p => claimedRunEntity text p.1 p.2)

/-- The amended description: identical to the claim except that a run of
a single entity keeps that entity's own text field instead of re-slicing
the document. -/
def amendedRunEntity (text : String) (first : RawEntity)
    (run : List RawEntity) : MergedEntity :=
  { claimedRunEntity text first run with
    text := if run.isEmpty then first.text
            else pySlice text first.start (runStop first run) }

/-- The amended claim for _merge_subword_entities as a whole. -/
def amended_merge (entities : List RawEntity) (text : String) :
    List MergedEntity :=
  (groupRuns entities).map (fun p => amendedRunEntity text p.1 p.2)

/-- LegalNER.type_mapping, in insertion order (Python dicts iterate in
insertion order, and the mapping loop takes the first matching key). -/
def type_mapping : List (String × String) :=
  [("PER", "PERSON"), ("PERSON", "PERSON"), ("ORG", "ORGANIZATION"),
   ("ORGANIZATION", "ORGANIZATION"), ("LOC", "LOCATION"),
   ("LOCATION", "LOCATION"), ("GPE", "LOCATION"), ("DATE", "DATE"),
   ("TIME", "TIME"), ("MONEY", "MONEY"), ("PERCENT", "PERCENT"),
   ("QUANTITY", "QUANTITY"), ("CARDINAL", "NUMBER"), ("ORDINAL", "NUMBER"),
   ("LAW", "LAW"), ("PRODUCT", "PRODUCT"), ("EVENT", "EVENT"),
   ("WORK_OF_ART", "DOCUMENT"), ("LANGUAGE", "LANGUAGE"), ("NORP", "GROUP"),
   ("FAC", "FACILITY")]

/-- The for-break loop over type_mapping in predict: first key that is a
substring of the uppercased entity type wins. -/
def mapEntityType (t : String) : String :=
  match type_mapping.find? (fun kv => containsSub (pyUpper t) kv.1) with
  | some kv => kv.2
  | none => t

/-- A character counted by the regex class \w (ASCII model). -/
def isWordChar (c : Char) : Bool := c.isAlphanum || c = '_'

/-- LegalNER._clean_entity_text: strip, then drop the leading and the
trailing run of non-word characters. -/
def clean_entity_text (s : String) : String :=
  let t := pyStrip s
  String.mk (((t.toList.dropWhile (fun c => !isWordChar c)).reverse.dropWhile
      (fun c => !isWordChar c)).reverse)

/-- The stopword set of LegalNER._is_valid_entity. -/
def ner_stopwords : List String :=
  ["the", "a", "an", "and", "or", "but", "in", "on", "at", "to", "for",
   "of", "with", "by", "from", "as", "is", "was", "are", "were", "be",
   "been", "being", "have", "has", "had", "do", "does", "did", "will",
   "would", "should", "could", "may", "might", "must", "can", "this",
   "that", "these", "those"]

/-- LegalNER._is_valid_entity. -/
def is_valid_entity (text : String) (entity_type : String) : Bool :=
  let text := pyStrip text
  if text.length < 2 then false
  else if !(text.toList.any Char.isAlpha) then false
  else if ner_stopwords.contains (pyLower text) then false
  else if !(["DATE", "TIME", "MONEY", "PERCENT", "NUMBER"].contains entity_type)
          && pyIsDigit text then false
  else true

/-- LegalNER._get_context with the default window of 50. -/
def get_context (text : String) (start stop : Nat) : String :=
  let context_start := start - 50
  let context_stop := min text.length (stop + 50)
  let context := pyStrip (pySlice text context_start context_stop)
  let context := if 0 < context_start then "..." ++ context else context
  if context_stop < text.length then context ++ "..." else context

/-- One entity of the list returned by LegalNER.predict. -/
structure OutEntity where
  text : String
  type : String
  score : ℚ
  context : String
deriving DecidableEq, Repr

/-- The clean/validate/deduplicate loop of predict; seen is the set of
lowercased texts already emitted. -/
def predictFilter (text : String) :
    List MergedEntity → List String → List OutEntity
  | [], _ => []
  | e :: rest, seen =>
      let entity_type := mapEntityType e.type
      let entity_text := clean_entity_text e.text
      if !is_valid_entity entity_text entity_type then
        predictFilter text rest seen
      else if seen.contains (pyLower entity_text) then
        predictFilter text rest seen
      else
        { text := entity_text, type := entity_type, score := e.score,
          context := get_context text e.start e.stop }
          :: predictFilter text rest (pyLower entity_text :: seen)

/-- LegalNER.predict downstream of the model: merge subword entities,
clean/validate/deduplicate, sort by score descending (Python's stable
sort with reverse=True), return the top 50. -/
def predict (entities_raw : List RawEntity) (text : String) :
    List OutEntity :=
  let merged := merge_subword_entities entities_raw text
  let out := predictFilter text merged []
  (out.mergeSort (fun a b => decide (b.score ≤ a.score))).take 50

/-! ## Route layer (app/api/routes_document_analysis.py,
routes_analysis_trigger.py, routes_risk.py)

Each model wrapper enters as an oracle returning Except String; an
error models an exception raised during that inference call. The
backend-integration calls (send_analysis_result, update_analysis_status)
catch their own HTTP errors and return data instead of raising
(app/services/backend_integration.py), so they cannot change a route's
outcome and are not modelled. -/

/-- One classified clause as produced by ClauseClassifier.predict. -/
structure Clause where
  paragraph : String
  label : String
  score : ℚ
  full_text : String
deriving DecidableEq, Repr

/-- One model inference call, for recording call traces. -/
inductive MLCall where
  | classify
  | ner
  | riskScore
  | summarize
  | qa
deriving DecidableEq, Repr

/-- What an HTTP request handler produces: a value, a raised
HTTPException (status, detail), or an exception escaping the handler
uncaught. -/
inductive RouteOutcome (α : Type) where
  | ok (a : α)
  | httpError (status : Nat) (detail : String)
  | unhandled (e : String)
deriving DecidableEq

/-- The model wrappers as seen from the routes. -/
structure MLModels where
  classifyP : String → Except String (List Clause)
  nerP : String → Except String (List OutEntity)
  scoreClause : String → Except String PyDict
  summarizeP : String → Nat → Except String String
  answerQuestionP : String → String → Except String QAOut

/-- One entry of the risks list built by analyze_document_complete. Note
the route reads keys "score" and "level", which score_clause's dict does
not carry (it has "risk_score" and "risk_level"), so those .get defaults
apply. -/
structure RiskItem where
  clause_text : String
  clause_type : String
  risk_score : DVal
  risk_level : DVal
  confidence : DVal
deriving DecidableEq, Repr

/-- One entry of the qa_results list of analyze_document_complete. -/
structure QAItem where
  question : String
  answer : String
  confidence : ℚ
  start : Nat
  stop : Nat
deriving DecidableEq, Repr

/-- DocumentAnalysisRequest (analysis-relevant fields). -/
structure DocRequest where
  text : String
  document_id : Option String
  questions : Option (List String)
  summary_length : Option Nat
deriving DecidableEq, Repr

/-- DocumentAnalysisResponse (analysis-relevant fields; analysis_id,
timestamp and the constant metadata are omitted as nondeterministic or
constant). -/
structure DocResponse where
  document_id : Option String
  clauses : List Clause
  clause_count : Nat
  entities : List OutEntity
  entity_count : Nat
  risks : List RiskItem
  high_risk_count : Nat
  average_risk_score : ℚ
  summary : String
  summary_length : Nat
  qa_results : List QAItem
deriving DecidableEq, Repr

/-- The risk loop of analyze_document_complete: one score_clause call per
classified clause, stopping at the first raised exception (which the
outer handler turns into HTTP 500); also returns the calls made. -/
def riskLoopComplete (score : String → Except String PyDict) :
    List Clause → Except String (List RiskItem) × List MLCall
  | [] => (.ok [], [])
  | c :: rest =>
      match score c.paragraph with
      | .error e => (.error e, [.riskScore])
      | .ok d =>
          let item : RiskItem :=
            { clause_text := c.paragraph
              clause_type := c.label
              risk_score := pyGet d "score" (.num 0)
              risk_level := pyGet d "level" (.str "UNKNOWN")
              confidence := pyGet d "confidence" (.num 0) }
          let rt := riskLoopComplete score rest
          (rt.1.map (fun l => item :: l), .riskScore :: rt.2)

/-- The question loop of analyze_document_complete. -/
def qaLoopComplete (answer : String → String → Except String QAOut)
    (text : String) :
    List String → Except String (List QAItem) × List MLCall
  | [] => (.ok [], [])
  | q :: rest =>
      match answer q text with
      | .error e => (.error e, [.qa])
      | .ok a =>
          let item : QAItem :=
            { question := q, answer := a.answer, confidence := a.confidence,
              start := a.answer_start, stop := a.answer_end }
          let rt := qaLoopComplete answer text rest
          (rt.1.map (fun l => item :: l), .qa :: rt.2)

/-- POST /analyze/complete (analyze_document_complete): classify, NER,
risk per clause, summarize, QA per question when a non-empty question
list is provided; any raised exception reaches the outer handler, which
returns HTTP 500 with detail "Analysis failed: " + str(e). -/
def analyze_document_complete (m : MLModels) (req : DocRequest) :
    RouteOutcome DocResponse × List MLCall :=
  match m.classifyP req.text with
  | .error e => (.httpError 500 ("Analysis failed: " ++ e), [.classify])
  | .ok classifications =>
    match m.nerP req.text with
    | .error e => (.httpError 500 ("Analysis failed: " ++ e), [.classify, .ner])
    | .ok entities =>
      match riskLoopComplete m.scoreClause classifications with
      | (.error e, t) =>
          (.httpError 500 ("Analysis failed: " ++ e), .classify :: .ner :: t)
      | (.ok risks, t) =>
        match m.summarizeP req.text (pyOrNat req.summary_length 150) with
        | .error e =>
            (.httpError 500 ("Analysis failed: " ++ e),
             .classify :: .ner :: t ++ [.summarize])
        | .ok summary_text =>
          let qa :=
            match req.questions with
            | some qs =>
                if qs.isEmpty then (Except.ok ([] : List QAItem), ([] : List MLCall))
                else qaLoopComplete m.answerQuestionP req.text qs
            | none => (.ok [], [])
          match qa with
          | (.error e, tq) =>
              (.httpError 500 ("Analysis failed: " ++ e),
               .classify :: .ner :: t ++ [.summarize] ++ tq)
          | (.ok qa_results, tq) =>
            let total_clauses := classifications.length
            let high_risk_count :=
              (risks.filter (fun r =>
                r.risk_level == DVal.str "HIGH"
                  || r.risk_level == DVal.str "CRITICAL")).length
            let avg_risk :=
              if 0 < total_clauses then
                (risks.map (fun r => numOf r.risk_score)).sum / total_clauses
              else 0
            (.ok
              { document_id := req.document_id
                clauses := classifications
                clause_count := total_clauses
                entities := entities
                entity_count := entities.length
                risks := risks
                high_risk_count := high_risk_count
                average_risk_score := pyRound avg_risk 2
                summary := summary_text
                summary_length := summary_text.length
                qa_results := qa_results },
             .classify :: .ner :: t ++ [.summarize] ++ tq)

/-- One entry of risk_scores in process_document_analysis; built from the
returned dict, or from the degraded literals when score_clause raised. -/
structure RiskFactor where
  clause : String
  type : String
  risk_score : DVal
  risk_level : DVal
  confidence : DVal
deriving DecidableEq, Repr

/-- The per-clause entry of the trigger route's risk loop: the inner
try/except degrades a failed clause to risk_score 0 / "ERROR" /
confidence 0 instead of failing. -/
def riskEntryTrigger (score : String → Except String PyDict) (c : Clause) :
    RiskFactor :=
  match score c.paragraph with
  | .ok d =>
      { clause := c.paragraph.take 200
        type := c.label
        risk_score := pyGet d "risk_score" (.num 0)
        risk_level := pyGet d "risk_level" (.str "UNKNOWN")
        confidence := pyGet d "confidence" (.num 0) }
  | .error _ =>
      { clause := c.paragraph.take 200
        type := c.label
        risk_score := .num 0
        risk_level := .str "ERROR"
        confidence := .num 0 }

/-- The risk loop of process_document_analysis with its call trace. -/
def riskLoopTrigger (score : String → Except String PyDict) :
    List Clause → List RiskFactor × List MLCall
  | [] => ([], [])
  | c :: rest =>
      let rt := riskLoopTrigger score rest
      (riskEntryTrigger score c :: rt.1, .riskScore :: rt.2)

/-- The results payload assembled by process_document_analysis. -/
structure TriggerResults where
  entities : List OutEntity
  document_type : String
  doc_confidence : ℚ
  clauses : List Clause
  risk_score : ℚ
  risk_level : String
  risk_factors : List RiskFactor
  summary : String
  qa_results : List QAItem
deriving DecidableEq, Repr

/-- What the trigger background task reports to the backend at the end:
a completed result payload, or a failed status carrying str(e). -/
inductive AnalysisOutcome where
  | completed (r : TriggerResults)
  | failed (e : String)
deriving DecidableEq

/-- process_document_analysis (routes_analysis_trigger.py): NER first,
then classification, then risk on the first five clauses (each clause
individually guarded), then summarization with max_length 200; any other
raised exception falls to the outer handler, which reports status
"failed". -/
def process_document_analysis (m : MLModels) (document_text : String) :
    AnalysisOutcome × List MLCall :=
  match m.nerP document_text with
  | .error e => (.failed e, [.ner])
  | .ok entities =>
    match m.classifyP document_text with
    | .error e => (.failed e, [.ner, .classify])
    | .ok classifications =>
      let rl := riskLoopTrigger m.scoreClause (classifications.take 5)
      let risk_scores := rl.1
      let overall_risk :=
        if risk_scores.length ≠ 0 then
          (risk_scores.map (fun r => numOf r.risk_score)).sum
            / risk_scores.length
        else 0
      match m.summarizeP document_text 200 with
      | .error e => (.failed e, .ner :: .classify :: rl.2 ++ [.summarize])
      | .ok summary =>
          (.completed
            { entities := entities
              document_type :=
                (classifications.head?.map (fun c => c.label)).getD "Unknown"
              doc_confidence :=
                (classifications.head?.map (fun c => c.score)).getD 0
              clauses := classifications.take 15
              risk_score := overall_risk
              risk_level :=
                if 7 / 10 < overall_risk then "high"
                else if 4 / 10 < overall_risk then "medium" else "low"
              risk_factors := risk_scores
              summary := summary
              qa_results := [] },
           .ner :: .classify :: rl.2 ++ [.summarize])

/-- POST /risk/score (routes_risk.py): the handler calls score_clause
with no try/except of its own, so a raised exception escapes the route
handler uncaught. -/
def score_risk (scoreResult : Except String PyDict) : RouteOutcome PyDict :=
  match scoreResult with
  | .ok r => .ok r
  | .error e => .unhandled e

/-- The spec's claimed error-handling pattern, in its words: every route
catches broad exceptions at the boundary and returns HTTP 500 whose
detail contains the exception string. -/
def routeCatchesBroadly (h : Except String PyDict → RouteOutcome PyDict) :
    Prop :=
  ∀ e, ∃ d, h (.error e) = .httpError 500 d ∧ containsSub d e = true

/-- The claimed fixed call order of the combined analysis, in the claim's
words: classification, then NER, then risk per classified clause, then
summarization, then QA per provided question. -/
def claimedCallOrder (numClauses numQuestions : Nat) : List MLCall :=
  [.classify, .ner] ++ List.replicate numClauses .riskScore
    ++ [.summarize] ++ List.replicate numQuestions .qa

/-! ## Batch jobs (routes_document_analysis.py, _batch_jobs) -/

/-- One entry of a batch job's results list; the serialized per-document
analysis payload is opaque to the job bookkeeping. -/
structure BatchDocResult where
  document_id : Option String
  status : String
  payload : Option String
  error : Option String
deriving DecidableEq, Repr

/-- The per-job dict stored in _batch_jobs (timestamps as naturals). -/
structure BatchJob where
  status : String
  total_documents : Nat
  processed : Nat
  results : List BatchDocResult
  started_at : Nat
  completed_at : Option Nat
  error : Option String
deriving DecidableEq, Repr

/-- The in-memory _batch_jobs mapping. -/
abbrev JobStore := List (String × BatchJob)

/-- Python dict assignment _batch_jobs[job_id] = job. -/
def storeSet (s : JobStore) (k : String) (v : BatchJob) : JobStore :=
  (k, v) :: s.filter (fun p => decide (p.1 ≠ k))

/-- Field update of the job stored under an existing key (KeyError,
impossible in the source's call pattern, would leave the store unchanged
here). -/
def updateJob (s : JobStore) (k : String) (f : BatchJob → BatchJob) :
    JobStore :=
  s.map (fun p => if p.1 = k then (k, f p.2) else p)

/-- BatchAnalysisResponse with its pydantic defaults. -/
structure BatchResponse where
  job_id : String
  status : String
  total_documents : Nat
  processed : Nat
  results : List BatchDocResult
  message : Option String
  started_at : Option Nat
  completed_at : Option Nat
deriving DecidableEq, Repr

/-- POST /analyze/batch (analyze_batch): store the queued job under the
fresh job id and answer immediately; processing happens via later
background steps. -/
def analyze_batch (store : JobStore) (jid : String) (numDocs : Nat)
    (now : Nat) : JobStore × BatchResponse :=
  let job : BatchJob :=
    { status := "queued", total_documents := numDocs, processed := 0,
      results := [], started_at := now, completed_at := none, error := none }
  (storeSet store jid job,
   { job_id := jid, status := "queued", total_documents := numDocs,
     processed := 0, results := [],
     message := some ("Batch job " ++ jid ++ " queued for processing"),
     started_at := none, completed_at := none })

/-- GET /analyze/batch/job_id (get_batch_status): 404 when the id is
absent, otherwise the stored fields; the handler performs no store
assignment, which the returned store makes explicit. -/
def get_batch_status (store : JobStore) (jid : String) :
    (Except (Nat × String) BatchResponse) × JobStore :=
  match store.lookup jid with
  | none => (.error (404, "Job not found"), store)
  | some job =>
      (.ok { job_id := jid, status := job.status,
             total_documents := job.total_documents,
             processed := job.processed, results := job.results,
             message := none, started_at := some job.started_at,
             completed_at := job.completed_at },
       store)

/-- Every statement of the source that touches _batch_jobs: the submit
insert of analyze_batch, the read of get_batch_status, and the field
mutations of the process_batch background task. -/
inductive BatchOp where
  | submit (jid : String) (numDocs : Nat) (now : Nat)
  | poll (jid : String)
  | markProcessing (jid : String)
  | recordResult (jid : String) (r : BatchDocResult) (idx : Nat)
  | markCompleted (jid : String) (now : Nat)
  | markFailed (jid : String) (e : String)

/-- Effect of one store-touching step on _batch_jobs. -/
def applyOp (s : JobStore) : BatchOp → JobStore
  | .submit jid n now => (analyze_batch s jid n now).1
  | .poll jid => (get_batch_status s jid).2
  | .markProcessing jid =>
      updateJob s jid (fun j => { j with status := "processing" })
  | .recordResult jid r idx =>
      updateJob s jid (fun j =>
        { j with results := j.results ++ [r], processed := idx + 1 })
  | .markCompleted jid now =>
      updateJob s jid (fun j =>
        { j with status := "completed", completed_at := some now })
  | .markFailed jid e =>
      updateJob s jid (fun j => { j with status := "failed", error := some e })

/-- The key set of the job store. -/
def storeKeys (s : JobStore) : List String := s.map Prod.fst

/-! ## POST /analyze/clauses/compare (compare_clauses_batch)

The similarity matrix is built in an n-by-n array; the in-place cell
assignments are modelled as pointwise updates of a Nat → Nat → ℚ state
that is materialized into the returned list of rows at the end, and the
comparator calls made are recorded as (i, j) index pairs. -/

/-- Cell assignment similarity_matrix[i][j] = v. -/
def matUpd (m : Nat → Nat → ℚ) (i j : Nat) (v : ℚ) : Nat → Nat → ℚ :=
  fun a b => if a = i ∧ b = j then v else m a b

/-- The similarity the route extracts from one comparator result:
compare_clauses(ci, cj).get("similarity_score", 0). -/
def simOf (cmp : String → String → PyDict) (clauses : List String)
    (i j : Nat) : ℚ :=
  numOf (pyGet (cmp (clauses.getD i "") (clauses.getD j "")) "similarity_score"
    (.num 0))

/-- The body of the inner loop over j: the diagonal gets 1.0 without a
comparator call; off-diagonal cells get the comparator's score written
symmetrically, recording the call. -/
def innerStep (sim : Nat → Nat → ℚ) (i : Nat)
    (s : (Nat → Nat → ℚ) × List (Nat × Nat)) (j : Nat) :
    (Nat → Nat → ℚ) × List (Nat × Nat) :=
  if i = j then (matUpd s.1 i i 1, s.2)
  else (matUpd (matUpd s.1 i j (sim i j)) j i (sim i j), s.2 ++ [(i, j)])

/-- The inner loop: for j in range(i, n). -/
def innerLoop (sim : Nat → Nat → ℚ) (n i : Nat)
    (s : (Nat → Nat → ℚ) × List (Nat × Nat)) :
    (Nat → Nat → ℚ) × List (Nat × Nat) :=
  (List.range' i (n - i)).foldl (innerStep sim i) s

/-- Both loops of compare_clauses_batch, from the zero matrix. -/
def compareLoops (sim : Nat → Nat → ℚ) (n : Nat) :
    (Nat → Nat → ℚ) × List (Nat × Nat) :=
  (List.range n).foldl (fun s i => innerLoop sim n i s) (fun _ _ => 0, [])

/-- POST /analyze/clauses/compare: the returned n-by-n matrix of rows,
plus the comparator calls made while building it. -/
def compare_clauses_batch (cmp : String → String → PyDict)
    (clauses : List String) : List (List ℚ) × List (Nat × Nat) :=
  let n := clauses.length
  let s := compareLoops (simOf cmp clauses) n
  ((List.range n).map (fun i => (List.range n).map (fun j => s.1 i j)), s.2)

/-- A concrete length-10 probability vector instantiating C1. -/
def probs10 : List ℚ :=
  [1/100, 2/100, 3/100, 4/100, 5/100, 6/100, 7/100, 8/100, 9/100, 55/100]

/-- A trivial all-succeeding model oracle used to instantiate theorems. -/
def clause0 : Clause :=
  { paragraph := "The supplier may terminate this agreement at any time."
    label := "Termination"
    score := 9/10
    full_text := "The supplier may terminate this agreement at any time." }

/-- All-succeeding oracle: every inference call returns a value. -/
def okModels : MLModels :=
  { classifyP := fun _ => .ok [clause0]
    nerP := fun _ => .ok []
    scoreClause := fun _ => .ok (score_clause probs10)
    summarizeP := fun _ _ => .ok "A short summary."
    answerQuestionP := fun q _ => .ok ⟨q, "An answer.", 1/2, "", 3, 7⟩ }

/-- Oracle whose classifier raises. -/
def classifyFailModels : MLModels :=
  { okModels with classifyP := fun _ => .error "boom" }

/-- A minimal analysis request. -/
def req0 : DocRequest :=
  { text := "The supplier may terminate this agreement at any time."
    document_id := none
    questions := none
    summary_length := none }

/-- A concrete stored job for witnesses. -/
def job0 : BatchJob :=
  { status := "processing", total_documents := 3, processed := 1,
    results := [{ document_id := some "d1", status := "success",
                  payload := some "r1", error := none }],
    started_at := 17, completed_at := none, error := none }

/-! ## C3 -/

/-- Number of QA calls the route makes for an optional question list
(Python truthiness: None and the empty list mean no QA pass). -/
def qCount : Option (List String) → Nat
  | some qs => qs.length
  | none => 0

/-! ## C4 -/

/-- Oracle whose NER call raises while everything else succeeds. -/
def nerFailModels : MLModels :=
  { okModels with nerP := fun _ => .error "NER unavailable" }

/-- Oracle whose risk scorer raises on every clause. -/
def riskFailModels : MLModels :=
  { okModels with scoreClause := fun _ => .error "risk scorer OOM" }

/-- A constant comparator used to instantiate C9. -/
def cmp0 : String → String → PyDict :=
  fun _ _ => [("similarity_score", DVal.num (42/100))]

/-- A raw model entity used to instantiate C8. -/
def rawAlice : RawEntity :=
  { label := "B-PER", start := 0, stop := 5, text := "Alice", score := 1 }

/-- What predict returns for rawAlice in "Alice signed.". -/
def outAlice : OutEntity :=
  { text := "Alice", type := "PERSON", score := 1,
    context := "Alice signed." }

theorem argmaxAux_lt (xs : List ℚ) : ∀ (i best : Nat) (bv : ℚ),
    best < i → argmaxAux xs i best bv < i + xs.length := by
  induction xs with
  | nil =>
      intro i best bv h
      simpa [argmaxAux] using Nat.lt_of_lt_of_le h (Nat.le_add_right i 0)
  | cons x xs ih =>
      intro i best bv h
      simp only [argmaxAux, List.length_cons]
      by_cases hx : bv < x
      · simp only [hx, if_true]
        have hrec := ih (i + 1) i x (Nat.lt_succ_self i)
        omega
      · simp only [hx, if_false]
        have hrec := ih (i + 1) best bv (Nat.lt_succ_of_lt h)
        omega

theorem argmaxIdx_lt (l : List ℚ) (h : l ≠ []) : argmaxIdx l < l.length := by
  cases l with
  | nil => exact absurd rfl h
  | cons x xs =>
      have := argmaxAux_lt xs 1 0 x (Nat.zero_lt_one)
      simpa [argmaxIdx, List.length_cons, Nat.add_comm] using this

theorem takeRun_snd_length_le (base : String) :
    ∀ l : List RawEntity, (takeRun base l).2.length ≤ l.length := by
  intro l
  induction l with
  | nil => simp [takeRun]
  | cons e rest ih =>
      simp only [takeRun]
      by_cases h : pyStartsWith e.label "I-" && baseLabel e.label == base
      · simp only [h, if_true]
        exact Nat.le_succ_of_le ih
      · simp only [h, if_false]
        exact Nat.le_refl _

/-! ## Helper lemmas -/

theorem isPrefixOf_self (l : List Char) : l.isPrefixOf l = true := by
  induction l with
  | nil => rfl
  | cons c t ih => simp [List.isPrefixOf, ih]

theorem toList_append (a b : String) : (a ++ b).toList = a.toList ++ b.toList := by
  simp [String.toList]

/-- A string contains every suffix of itself as a substring. -/
theorem containsSub_append_self (a b : String) :
    containsSub (a ++ b) b = true := by
  rw [containsSub, List.any_eq_true]
  refine ⟨a.toList.length, List.mem_range.mpr ?_, ?_⟩
  · rw [toList_append, List.length_append]; omega
  · rw [toList_append, List.drop_left]; exact isPrefixOf_self _

theorem pyRound_zero (n : Nat) : pyRound 0 n = 0 := by
  simp [pyRound]

/-- The risk_levels table is total on 1..10. -/
theorem risk_levels_lookup_isSome (k : Nat) (h1 : 1 ≤ k) (h2 : k ≤ 10) :
    (risk_levels.lookup k).isSome = true := by
  interval_cases k <;> decide

/-! ## C1 -/

/-- C1: score_clause always returns a risk_score that is an integer
between 1 and 10 (the argmax over the ten-label head plus one) and a
risk_level equal to the risk_levels severity name for that score. -/
theorem C1_score_clause_range (probs : List ℚ) (h : probs.length = 10) :
    ∃ k : Nat, 1 ≤ k ∧ k ≤ 10 ∧
      pyGet (score_clause probs) "risk_score" (DVal.num 0) = DVal.num (k : ℚ) ∧
      (risk_levels.lookup k).isSome = true ∧
      pyGet (score_clause probs) "risk_level" (DVal.str "") =
        DVal.str ((risk_levels.lookup k).getD "<KeyError>") := by
  refine ⟨argmaxIdx probs + 1, Nat.le_add_left 1 _, ?_, rfl, ?_, rfl⟩
  · have hne : probs ≠ [] := by
      intro hnil; rw [hnil] at h; simp at h
    have := argmaxIdx_lt probs hne
    omega
  · have hne : probs ≠ [] := by
      intro hnil; rw [hnil] at h; simp at h
    have := argmaxIdx_lt probs hne
    exact risk_levels_lookup_isSome _ (Nat.le_add_left 1 _) (by omega)

theorem C1_score_clause_range_witness :
    probs10.length = 10 ∧
    ∃ k : Nat, 1 ≤ k ∧ k ≤ 10 ∧
      pyGet (score_clause probs10) "risk_score" (DVal.num 0) = DVal.num (k : ℚ) ∧
      (risk_levels.lookup k).isSome = true ∧
      pyGet (score_clause probs10) "risk_level" (DVal.str "") =
        DVal.str ((risk_levels.lookup k).getD "<KeyError>") :=
  ⟨rfl, C1_score_clause_range probs10 rfl⟩

/-! ## C10 -/

theorem qaIndices_le (sl el : List ℚ) (m : Nat) :
    (qaIndices sl el m).1 ≤ (qaIndices sl el m).2 ∧
    (qaIndices sl el m).2 - (qaIndices sl el m).1 ≤ m := by
  simp only [qaIndices]
  split_ifs <;> simp <;> omega

/-- C10: answer_question always returns answer_start ≤ answer_end with
their difference at most max_answer_length, and whenever the decoded
answer is empty or equals the question ignoring case it returns the
no-answer marker with confidence exactly 0. -/
theorem C10_answer_question_clamps (mo : QAModelOut)
    (decode : Nat → Nat → String) (q ctx : String) (maxLen : Nat) :
    (answer_question mo decode q ctx maxLen).answer_start ≤
      (answer_question mo decode q ctx maxLen).answer_end ∧
    (answer_question mo decode q ctx maxLen).answer_end -
      (answer_question mo decode q ctx maxLen).answer_start ≤ maxLen ∧
    ((decode (answer_question mo decode q ctx maxLen).answer_start
        (answer_question mo decode q ctx maxLen).answer_end = "" ∨
      pyLower (decode (answer_question mo decode q ctx maxLen).answer_start
        (answer_question mo decode q ctx maxLen).answer_end)
          = pyLower q) →
      (answer_question mo decode q ctx maxLen).answer
          = "[No clear answer found in context]" ∧
      (answer_question mo decode q ctx maxLen).confidence = 0) := by
  have hb := qaIndices_le mo.start_logits mo.end_logits maxLen
  have hstart : (answer_question mo decode q ctx maxLen).answer_start =
      (qaIndices mo.start_logits mo.end_logits maxLen).1 := rfl
  have hstop : (answer_question mo decode q ctx maxLen).answer_end =
      (qaIndices mo.start_logits mo.end_logits maxLen).2 := rfl
  refine ⟨by rw [hstart, hstop]; exact hb.1, by rw [hstart, hstop]; exact hb.2, ?_⟩
  intro hcond
  rw [hstart, hstop] at hcond
  have hno : (decide (decode (qaIndices mo.start_logits mo.end_logits maxLen).1
      (qaIndices mo.start_logits mo.end_logits maxLen).2 = "")
      || decide (pyLower (decode (qaIndices mo.start_logits mo.end_logits maxLen).1
        (qaIndices mo.start_logits mo.end_logits maxLen).2)
          = pyLower q)) = true := by
    rcases hcond with hc | hc
    · simp [hc]
    · simp [hc]
  constructor
  · have hans : (answer_question mo decode q ctx maxLen).answer =
        (if (decide (decode (qaIndices mo.start_logits mo.end_logits maxLen).1
              (qaIndices mo.start_logits mo.end_logits maxLen).2 = "")
            || decide (pyLower (decode (qaIndices mo.start_logits mo.end_logits maxLen).1
              (qaIndices mo.start_logits mo.end_logits maxLen).2)
                = pyLower q))
          then "[No clear answer found in context]"
          else decode (qaIndices mo.start_logits mo.end_logits maxLen).1
            (qaIndices mo.start_logits mo.end_logits maxLen).2) := rfl
    rw [hans, hno]
    simp
  · have hconf : (answer_question mo decode q ctx maxLen).confidence =
        pyRound
          (if (decide (decode (qaIndices mo.start_logits mo.end_logits maxLen).1
              (qaIndices mo.start_logits mo.end_logits maxLen).2 = "")
            || decide (pyLower (decode (qaIndices mo.start_logits mo.end_logits maxLen).1
              (qaIndices mo.start_logits mo.end_logits maxLen).2)
                = pyLower q))
          then 0
          else ((mo.start_probs.getD
              (qaIndices mo.start_logits mo.end_logits maxLen).1 0)
            + (mo.end_probs.getD
              (qaIndices mo.start_logits mo.end_logits maxLen).2 0)) / 2) 3 := rfl
    rw [hconf, hno]
    simpa using pyRound_zero 3

theorem C10_answer_question_clamps_witness :
    ((answer_question ⟨[1], [1], [1], [1]⟩ (fun _ _ => "") "q" "ctx" 100).answer
        = "[No clear answer found in context]" ∧
      (answer_question ⟨[1], [1], [1], [1]⟩ (fun _ _ => "") "q" "ctx" 100).confidence
        = 0) :=
  (C10_answer_question_clamps ⟨[1], [1], [1], [1]⟩ (fun _ _ => "") "q" "ctx" 100).2.2
    (Or.inl rfl)

/-! ## C2 -/

/-- C2 counterexample: POST /risk/score has no try/except, so it does
not satisfy the claimed catch-log-500 pattern — a raised exception
escapes the handler uncaught instead of becoming HTTP 500. -/
theorem C2_counterexample : ¬ routeCatchesBroadly score_risk := by
  intro h
  obtain ⟨d, hd, _⟩ := h "boom"
  simp only [score_risk] at hd
  exact RouteOutcome.noConfusion hd

/-- C2 amended: the routes of routes_document_analysis (and the other
files that wrap their handlers in try/except) catch broad exceptions and
return HTTP 500 whose detail contains the exception string, but the thin
model routes such as POST /risk/score have no handler-level try/except,
so exceptions escape those handlers uncaught. -/
theorem C2_amended_catch_pattern (e : String) (m : MLModels)
    (req : DocRequest) :
    score_risk (.error e) = .unhandled e ∧
    (m.classifyP req.text = .error e →
      (analyze_document_complete m req).1
          = .httpError 500 ("Analysis failed: " ++ e) ∧
      containsSub ("Analysis failed: " ++ e) e = true) := by
  refine ⟨rfl, fun h => ⟨?_, containsSub_append_self "Analysis failed: " e⟩⟩
  simp [analyze_document_complete, h]

theorem C2_amended_catch_pattern_witness :
    (analyze_document_complete classifyFailModels req0).1
        = .httpError 500 ("Analysis failed: " ++ "boom") :=
  ((C2_amended_catch_pattern "boom" classifyFailModels req0).2 rfl).1

/-! ## C6 -/

/-- C6: GET /analyze/batch/job_id returns 404 exactly when the id is
absent from _batch_jobs; for a present id it returns the stored status,
total_documents, processed count and results unchanged, and the read
leaves the store unchanged. -/
theorem C6_get_batch_status_spec (store : JobStore) (jid : String) :
    (get_batch_status store jid).2 = store ∧
    ((get_batch_status store jid).1 = .error (404, "Job not found") ↔
      store.lookup jid = none) ∧
    (∀ job, store.lookup jid = some job →
      (get_batch_status store jid).1 =
        .ok { job_id := jid, status := job.status,
              total_documents := job.total_documents,
              processed := job.processed, results := job.results,
              message := none, started_at := some job.started_at,
              completed_at := job.completed_at }) := by
  cases h : store.lookup jid with
  | none => refine ⟨by simp [get_batch_status, h], by simp [get_batch_status, h], ?_⟩
            intro job hj
            exact Option.noConfusion hj
  | some job =>
      refine ⟨by simp [get_batch_status, h], by simp [get_batch_status, h], ?_⟩
      intro job' hj
      cases hj
      simp [get_batch_status, h]

theorem C6_get_batch_status_spec_witness :
    (get_batch_status [("j1", job0)] "j1").1 =
      .ok { job_id := "j1", status := job0.status,
            total_documents := job0.total_documents,
            processed := job0.processed, results := job0.results,
            message := none, started_at := some job0.started_at,
            completed_at := job0.completed_at } :=
  (C6_get_batch_status_spec [("j1", job0)] "j1").2.2 job0 rfl

/-! ## C5 -/

theorem storeKeys_updateJob (s : JobStore) (k : String)
    (f : BatchJob → BatchJob) : storeKeys (updateJob s k f) = storeKeys s := by
  induction s with
  | nil => rfl
  | cons p rest ih =>
      simp only [storeKeys, updateJob, List.map_cons] at *
      by_cases h : p.1 = k
      · simp [h, ih]
      · simp [h, ih]

theorem get_batch_status_store (s : JobStore) (jid : String) :
    (get_batch_status s jid).2 = s := by
  cases h : s.lookup jid <;> simp [get_batch_status, h]

theorem mem_storeKeys_applyOp (s : JobStore) (op : BatchOp) (jid : String)
    (h : jid ∈ storeKeys s) : jid ∈ storeKeys (applyOp s op) := by
  cases op with
  | submit jid' n now =>
      simp only [applyOp, analyze_batch, storeSet, storeKeys, List.map_cons]
      by_cases he : jid = jid'
      · exact he ▸ List.mem_cons_self _ _
      · right
        obtain ⟨p, hp, hp1⟩ := List.mem_map.mp h
        exact List.mem_map.mpr ⟨p, List.mem_filter.mpr ⟨hp, by simp [hp1, he]⟩, hp1⟩
  | poll jid' => simpa [applyOp, get_batch_status_store] using h
  | markProcessing jid' => simpa [applyOp, storeKeys_updateJob] using h
  | recordResult jid' r idx => simpa [applyOp, storeKeys_updateJob] using h
  | markCompleted jid' now => simpa [applyOp, storeKeys_updateJob] using h
  | markFailed jid' e => simpa [applyOp, storeKeys_updateJob] using h

theorem mem_storeKeys_foldl (ops : List BatchOp) :
    ∀ (s : JobStore) (jid : String), jid ∈ storeKeys s →
      jid ∈ storeKeys (ops.foldl applyOp s) := by
  induction ops with
  | nil => intro s jid h; simpa using h
  | cons op rest ih =>
      intro s jid h
      exact ih (applyOp s op) jid (mem_storeKeys_applyOp s op jid h)

/-- C5: no operation ever removes an entry from _batch_jobs — a job id
stored by POST /analyze/batch is still present after any sequence of
submit, poll, and background-processing steps, and every previously
present id likewise survives every step. -/
theorem C5_batch_jobs_never_evicted (s : JobStore) (jid : String)
    (n now : Nat) (ops : List BatchOp) :
    jid ∈ storeKeys (ops.foldl applyOp (applyOp s (.submit jid n now))) ∧
    (∀ jid', jid' ∈ storeKeys s → jid' ∈ storeKeys (ops.foldl applyOp s)) := by
  constructor
  · refine mem_storeKeys_foldl ops _ jid ?_
    simp [applyOp, analyze_batch, storeSet, storeKeys]
  · intro jid' h
    exact mem_storeKeys_foldl ops s jid' h

theorem C5_batch_jobs_never_evicted_witness :
    "j1" ∈ storeKeys
      (([BatchOp.markProcessing "j1",
         BatchOp.recordResult "j1"
           { document_id := some "d1", status := "success",
             payload := some "r1", error := none } 0,
         BatchOp.poll "j1", BatchOp.markCompleted "j1" 9,
         BatchOp.submit "j2" 1 9]).foldl applyOp
        (applyOp [("j0", job0)] (.submit "j1" 2 5))) ∧
    "j0" ∈ storeKeys
      (([BatchOp.markProcessing "j1", BatchOp.poll "j0",
         BatchOp.submit "j2" 1 9]).foldl applyOp [("j0", job0)]) :=
  ⟨(C5_batch_jobs_never_evicted [("j0", job0)] "j1" 2 5
      [BatchOp.markProcessing "j1",
       BatchOp.recordResult "j1"
         { document_id := some "d1", status := "success",
           payload := some "r1", error := none } 0,
       BatchOp.poll "j1", BatchOp.markCompleted "j1" 9,
       BatchOp.submit "j2" 1 9]).1,
   (C5_batch_jobs_never_evicted [("j0", job0)] "j1" 2 5
      [BatchOp.markProcessing "j1", BatchOp.poll "j0",
       BatchOp.submit "j2" 1 9]).2 "j0" (by simp [storeKeys])⟩

theorem riskLoopComplete_ok (score : String → Except String PyDict)
    (cs : List Clause) (h : ∀ c ∈ cs, ∃ d, score c.paragraph = .ok d) :
    ∃ items, riskLoopComplete score cs =
      (.ok items, List.replicate cs.length .riskScore) := by
  induction cs with
  | nil => exact ⟨[], rfl⟩
  | cons c rest ih =>
      obtain ⟨d, hd⟩ := h c (List.mem_cons_self c rest)
      obtain ⟨items, hitems⟩ := ih (fun c' hc' => h c' (List.mem_cons_of_mem c hc'))
      refine ⟨({ clause_text := c.paragraph
                 clause_type := c.label
                 risk_score := pyGet d "score" (.num 0)
                 risk_level := pyGet d "level" (.str "UNKNOWN")
                 confidence := pyGet d "confidence" (.num 0) } : RiskItem)
               :: items, ?_⟩
      simp [riskLoopComplete, hd, hitems, List.replicate_succ, Except.map]

theorem qaLoopComplete_ok (answer : String → String → Except String QAOut)
    (text : String) (qs : List String)
    (h : ∀ q ∈ qs, ∃ a, answer q text = .ok a) :
    ∃ items, qaLoopComplete answer text qs =
      (.ok items, List.replicate qs.length .qa) := by
  induction qs with
  | nil => exact ⟨[], rfl⟩
  | cons q rest ih =>
      obtain ⟨a, ha⟩ := h q (List.mem_cons_self q rest)
      obtain ⟨items, hitems⟩ := ih (fun q' hq' => h q' (List.mem_cons_of_mem q hq'))
      refine ⟨({ question := q
                 answer := a.answer
                 confidence := a.confidence
                 start := a.answer_start
                 stop := a.answer_end } : QAItem) :: items, ?_⟩
      simp [qaLoopComplete, ha, hitems, List.replicate_succ, Except.map]

theorem riskLoopTrigger_eq (score : String → Except String PyDict)
    (cs : List Clause) :
    riskLoopTrigger score cs =
      (cs.map (riskEntryTrigger score), List.replicate cs.length .riskScore) := by
  induction cs with
  | nil => rfl
  | cons c rest ih => simp [riskLoopTrigger, ih, List.replicate_succ]

/-- C3 counterexample: with an all-succeeding oracle and one classified
clause, the trigger flow process_document_analysis calls NER before
classification, so its trace is not the claimed fixed order
classification-NER-risk-summarize. -/
theorem C3_counterexample :
    (process_document_analysis okModels "doc").2
        = [.ner, .classify, .riskScore, .summarize] ∧
    (process_document_analysis okModels "doc").2 ≠ claimedCallOrder 1 0 := by
  constructor
  · rfl
  · intro h
    rw [show (process_document_analysis okModels "doc").2
          = [.ner, .classify, .riskScore, .summarize] from rfl] at h
    simp [claimedCallOrder] at h

/-- C3 amended: analyze_document_complete performs, in order, one
classification call, one NER call, one risk call per classified clause,
one summarization call, and one QA call per question when a non-empty
question list is provided, with no retries; process_document_analysis
instead performs NER first, then classification, then one risk call for
each of at most the first five clauses, then summarization, and never a
QA call. -/
theorem C3_amended_call_order (m : MLModels) (req : DocRequest)
    (dt : String) (cs cs2 : List Clause) (es es2 : List OutEntity)
    (sm sm2 : String)
    (hc : m.classifyP req.text = .ok cs)
    (hn : m.nerP req.text = .ok es)
    (hrisk : ∀ c ∈ cs, ∃ d, m.scoreClause c.paragraph = .ok d)
    (hsum : m.summarizeP req.text (pyOrNat req.summary_length 150) = .ok sm)
    (hqa : ∀ qs, req.questions = some qs →
      ∀ q ∈ qs, ∃ a, m.answerQuestionP q req.text = .ok a)
    (hn2 : m.nerP dt = .ok es2)
    (hc2 : m.classifyP dt = .ok cs2)
    (hsum2 : m.summarizeP dt 200 = .ok sm2) :
    (analyze_document_complete m req).2
        = claimedCallOrder cs.length (qCount req.questions) ∧
    (process_document_analysis m dt).2
        = [.ner, .classify] ++ List.replicate (min 5 cs2.length) .riskScore
            ++ [.summarize] := by
  constructor
  · obtain ⟨items, hloop⟩ := riskLoopComplete_ok m.scoreClause cs hrisk
    cases hq : req.questions with
    | none =>
        simp [analyze_document_complete, hc, hn, hloop, hsum, hq,
          claimedCallOrder, qCount]
    | some qs =>
        cases qs with
        | nil =>
            simp [analyze_document_complete, hc, hn, hloop, hsum, hq,
              claimedCallOrder, qCount]
        | cons q qrest =>
            obtain ⟨qitems, hqloop⟩ :=
              qaLoopComplete_ok m.answerQuestionP req.text (q :: qrest)
                (hqa (q :: qrest) hq)
            simp [analyze_document_complete, hc, hn, hloop, hsum, hq, hqloop,
              claimedCallOrder, qCount]
  · simp [process_document_analysis, hn2, hc2, hsum2, riskLoopTrigger_eq,
      List.length_take]

theorem C3_amended_call_order_witness :
    (analyze_document_complete okModels req0).2 = claimedCallOrder 1 0 ∧
    (process_document_analysis okModels "doc").2
        = [.ner, .classify] ++ List.replicate (min 5 1) .riskScore
            ++ [.summarize] := by
  have h := C3_amended_call_order okModels req0 "doc" [clause0] [clause0]
    [] [] "A short summary." "A short summary." rfl rfl
    (fun c _ => ⟨score_clause probs10, rfl⟩) rfl
    (fun qs hqs => by cases hqs)
    rfl rfl rfl
  exact h

/-- C4 counterexample: a single model failure does not merely degrade
that model's field — an NER exception makes the whole trigger analysis
report failed, and a classifier exception makes /analyze/complete return
HTTP 500, so the combined analysis does fail as a whole. -/
theorem C4_counterexample :
    (process_document_analysis nerFailModels "doc").1
        = .failed "NER unavailable" ∧
    (analyze_document_complete classifyFailModels req0).1
        = .httpError 500 "Analysis failed: boom" := by
  exact ⟨rfl, rfl⟩

/-- C4 amended: in process_document_analysis only an individual clause's
risk-scoring failure is degraded in place (risk_score 0, risk_level
"ERROR", confidence 0) while the other models' results are still
computed and delivered; a failure of NER there reports the whole
analysis failed, and any model failure inside analyze_document_complete
(classification shown) turns the whole request into HTTP 500. -/
theorem C4_amended_partial_failure (m : MLModels) (dt : String)
    (es : List OutEntity) (cs : List Clause) (sm : String)
    (hn : m.nerP dt = .ok es)
    (hc : m.classifyP dt = .ok cs)
    (hs : m.summarizeP dt 200 = .ok sm) :
    (∃ r, (process_document_analysis m dt).1 = .completed r ∧
      r.risk_factors = (cs.take 5).map (riskEntryTrigger m.scoreClause) ∧
      r.entities = es ∧ r.summary = sm ∧ r.clauses = cs.take 15) ∧
    (∀ c e, m.scoreClause c.paragraph = .error e →
      riskEntryTrigger m.scoreClause c =
        { clause := c.paragraph.take 200, type := c.label,
          risk_score := .num 0, risk_level := .str "ERROR",
          confidence := .num 0 }) ∧
    (∀ e, (nerFailModels.nerP dt = .error e) →
      (process_document_analysis nerFailModels dt).1 = .failed e) ∧
    (∀ (m' : MLModels) (req : DocRequest) e,
      m'.classifyP req.text = .error e →
      (analyze_document_complete m' req).1
          = .httpError 500 ("Analysis failed: " ++ e)) := by
  refine ⟨?_, ?_, ?_, ?_⟩
  · simp only [process_document_analysis, hn, hc, hs, riskLoopTrigger_eq]
    exact ⟨_, rfl, rfl, rfl, rfl, rfl⟩
  · intro c e he
    simp [riskEntryTrigger, he]
  · intro e he
    simp only [nerFailModels] at he ⊢
    cases he
    rfl
  · intro m' req e he
    simp [analyze_document_complete, he]

theorem C4_amended_partial_failure_witness :
    ∃ r, (process_document_analysis riskFailModels "doc").1 = .completed r ∧
      r.risk_factors =
        [{ clause := clause0.paragraph.take 200, type := clause0.label,
           risk_score := .num 0, risk_level := .str "ERROR",
           confidence := .num 0 }] ∧
      r.entities = [] ∧ r.summary = "A short summary." := by
  obtain ⟨r, hr, hrf, he, hs, _⟩ :=
    (C4_amended_partial_failure riskFailModels "doc" [] [clause0]
      "A short summary." rfl rfl rfl).1
  refine ⟨r, hr, ?_, he, hs⟩
  rw [hrf]
  have hdeg := (C4_amended_partial_failure riskFailModels "doc" [] [clause0]
      "A short summary." rfl rfl rfl).2.1 clause0 "risk scorer OOM" rfl
  simp [hdeg]

/-! ## C7 -/

theorem absorbMany_eq (text : String) :
    ∀ (run : List RawEntity) (c : MergedEntity), run ≠ [] →
      run.foldl (absorbEntity text) c =
        { c with
          stop := ((run.getLast?).map (fun e => e.stop)).getD c.stop
          text := pySlice text c.start
            (((run.getLast?).map (fun e => e.stop)).getD c.stop)
          score := run.foldl (fun a e => max a e.score) c.score } := by
  intro run
  induction run with
  | nil => intro c h; exact absurd rfl h
  | cons x t ih =>
      intro c _
      cases t with
      | nil => simp [absorbEntity]
      | cons y t' =>
          have hne : (y :: t') ≠ [] := by simp
          rw [List.foldl_cons, ih (absorbEntity text c x) hne]
          cases hgl : (y :: t').getLast? with
          | none => simp [List.getLast?_cons_cons] at hgl
          | some z => simp [absorbEntity, List.getLast?_cons_cons, hgl]

theorem absorbMany_startEntity (text : String) (e : RawEntity)
    (run : List RawEntity) :
    run.foldl (absorbEntity text) (startEntity e) =
      amendedRunEntity text e run := by
  cases hrun : run with
  | nil =>
      simp [amendedRunEntity, claimedRunEntity, runStop, runScore, startEntity]
  | cons x t =>
      rw [absorbMany_eq text (x :: t) (startEntity e) (by simp)]
      simp [amendedRunEntity, claimedRunEntity, runStop, runScore, startEntity]

theorem mergeLoop_eq (text : String) :
    ∀ (n : Nat) (l : List RawEntity), l.length ≤ n → ∀ (c : MergedEntity),
      mergeLoop text c l =
        (takeRun c.base_label l).1.foldl (absorbEntity text) c
          :: (groupRuns (takeRun c.base_label l).2).map
              (fun p => amendedRunEntity text p.1 p.2) := by
  intro n
  induction n with
  | zero =>
      intro l hl c
      have : l = [] := List.length_eq_zero.mp (Nat.le_zero.mp hl)
      subst this
      simp [mergeLoop, takeRun, groupRuns]
  | succ n ih =>
      intro l hl c
      cases l with
      | nil => simp [mergeLoop, takeRun, groupRuns]
      | cons e rest =>
          have hrest : rest.length ≤ n := by
            simpa [List.length_cons] using Nat.lt_succ_iff.mp
              (Nat.lt_of_lt_of_le (Nat.lt_succ_self rest.length)
                (by simpa [List.length_cons] using hl))
          by_cases hcond :
              (pyStartsWith e.label "I-" && baseLabel e.label == c.base_label) = true
          · have hbase : (absorbEntity text c e).base_label = c.base_label := rfl
            rw [show mergeLoop text c (e :: rest)
                  = mergeLoop text (absorbEntity text c e) rest by
                simp [mergeLoop, hcond]]
            rw [ih rest hrest (absorbEntity text c e), hbase]
            rw [show takeRun c.base_label (e :: rest)
                  = (e :: (takeRun c.base_label rest).1,
                     (takeRun c.base_label rest).2) by
                simp [takeRun, hcond]]
            simp
          · have hstart : (startEntity e).base_label = baseLabel e.label := rfl
            rw [show mergeLoop text c (e :: rest)
                  = c :: mergeLoop text (startEntity e) rest by
                simp [mergeLoop, hcond]]
            rw [ih rest hrest (startEntity e), hstart]
            rw [show takeRun c.base_label (e :: rest) = ([], e :: rest) by
                simp [takeRun, hcond]]
            rw [absorbMany_startEntity]
            simp only [List.foldl_nil]
            rw [show groupRuns (e :: rest)
                  = (e, (takeRun (baseLabel e.label) rest).1)
                      :: groupRuns (takeRun (baseLabel e.label) rest).2 by
                simp [groupRuns]]
            simp

/-- C7 counterexample: a run consisting of a single raw entity keeps the
raw entity's own text field; the claim's description would re-slice the
document, giving a different text. -/
theorem C7_counterexample :
    (merge_subword_entities
      [{ label := "B-PER", start := 0, stop := 3, text := "foo",
         score := 1/2 }] "bar").map (fun e => e.text) = ["foo"] ∧
    (claimed_merge
      [{ label := "B-PER", start := 0, stop := 3, text := "foo",
         score := 1/2 }] "bar").map (fun e => e.text) = ["bar"] ∧
    merge_subword_entities
      [{ label := "B-PER", start := 0, stop := 3, text := "foo",
         score := 1/2 }] "bar" ≠
      claimed_merge
        [{ label := "B-PER", start := 0, stop := 3, text := "foo",
           score := 1/2 }] "bar" := by
  have h1 : (merge_subword_entities
      [{ label := "B-PER", start := 0, stop := 3, text := "foo",
         score := 1/2 }] "bar").map (fun e => e.text) = ["foo"] := rfl
  have h2 : (claimed_merge
      [{ label := "B-PER", start := 0, stop := 3, text := "foo",
         score := 1/2 }] "bar").map (fun e => e.text) = ["bar"] := by
    rw [show claimed_merge
        [{ label := "B-PER", start := 0, stop := 3, text := "foo",
           score := 1/2 }] "bar"
        = (groupRuns
            [{ label := "B-PER", start := 0, stop := 3, text := "foo",
               score := 1/2 }]).map
            (fun p => claimedRunEntity "bar" p.1 p.2) from rfl]
    rw [show groupRuns
        [{ label := "B-PER", start := 0, stop := 3, text := "foo",
           score := 1/2 }]
        = [({ label := "B-PER", start := 0, stop := 3, text := "foo",
              score := 1/2 }, [])] by simp [groupRuns, takeRun]]
    rfl
  refine ⟨h1, h2, ?_⟩
  intro h
  rw [h] at h1
  rw [h1] at h2
  exact absurd h2 (by decide)

/-- C7 amended: _merge_subword_entities merges each maximal run of
consecutive entities whose non-initial members carry an "I-" label with
the run's base label; the merged entity spans from the first entity's
start to the last entity's end, its score is the run maximum, and its
text is the document slice over that span whenever the run has at least
two entities, while a run of a single entity keeps that entity's own
text field; no entity is dropped. -/
theorem C7_amended_merge_eq (entities : List RawEntity) (text : String) :
    merge_subword_entities entities text = amended_merge entities text := by
  cases entities with
  | nil => simp [merge_subword_entities, amended_merge, groupRuns]
  | cons e rest =>
      rw [show merge_subword_entities (e :: rest) text
            = mergeLoop text (startEntity e) rest from rfl]
      rw [mergeLoop_eq text rest.length rest (Nat.le_refl _) (startEntity e)]
      rw [show (startEntity e).base_label = baseLabel e.label from rfl]
      rw [absorbMany_startEntity]
      rw [show amended_merge (e :: rest) text
            = (groupRuns (e :: rest)).map
                (fun p => amendedRunEntity text p.1 p.2) from rfl]
      rw [show groupRuns (e :: rest)
            = (e, (takeRun (baseLabel e.label) rest).1)
                :: groupRuns (takeRun (baseLabel e.label) rest).2 by
          simp [groupRuns]]
      simp

/-! ## C8 -/

theorem pyStrip_toList_sublist (s : String) :
    (pyStrip s).toList.Sublist s.toList := by
  have h1 : (s.toList.dropWhile Char.isWhitespace).Sublist s.toList :=
    List.dropWhile_sublist _
  have h2 : ((s.toList.dropWhile Char.isWhitespace).reverse.dropWhile
      Char.isWhitespace).Sublist (s.toList.dropWhile Char.isWhitespace).reverse :=
    List.dropWhile_sublist _
  have h3 := h2.reverse
  rw [List.reverse_reverse] at h3
  exact (h3.trans h1)

theorem is_valid_entity_facts (t ty : String)
    (h : is_valid_entity t ty = true) :
    2 ≤ (pyStrip t).length ∧ (pyStrip t).toList.any Char.isAlpha = true := by
  simp only [is_valid_entity] at h
  split_ifs at h with h1 h2 h3 h4
  constructor
  · omega
  · simpa using h2

/-- Every entity emitted by the clean/validate/deduplicate loop passed
the validity check on its stored text and type. -/
theorem predictFilter_valid (text : String) :
    ∀ (l : List MergedEntity) (seen : List String),
      ∀ e ∈ predictFilter text l seen, is_valid_entity e.text e.type = true := by
  intro l
  induction l with
  | nil => intro seen e he; simp [predictFilter] at he
  | cons x rest ih =>
      intro seen e he
      simp only [predictFilter] at he
      by_cases hv : is_valid_entity (clean_entity_text x.text)
          (mapEntityType x.type) = true
      · rw [if_neg (by simp [hv])] at he
        by_cases hs : seen.contains (pyLower (clean_entity_text x.text)) = true
        · rw [if_pos hs] at he
          exact ih seen e he
        · rw [if_neg hs] at he
          rcases List.mem_cons.mp he with h | h
          · subst h
            simpa using hv
          · exact ih _ e h
      · rw [if_pos (by simp [hv])] at he
        exact ih seen e he

/-- The loop emits pairwise distinct lowercased texts, none of which was
already in seen. -/
theorem predictFilter_nodup (text : String) :
    ∀ (l : List MergedEntity) (seen : List String),
      ((predictFilter text l seen).map (fun e => pyLower e.text)).Nodup ∧
      ∀ s ∈ (predictFilter text l seen).map (fun e => pyLower e.text),
        s ∉ seen := by
  intro l
  induction l with
  | nil => intro seen; simp [predictFilter]
  | cons x rest ih =>
      intro seen
      simp only [predictFilter]
      by_cases hv : is_valid_entity (clean_entity_text x.text)
          (mapEntityType x.type) = true
      · rw [if_neg (by simp [hv])]
        by_cases hs : seen.contains (pyLower (clean_entity_text x.text)) = true
        · rw [if_pos hs]
          exact ih seen
        · rw [if_neg hs]
          obtain ⟨ihn, ihs⟩ := ih (pyLower (clean_entity_text x.text) :: seen)
          constructor
          · simp only [List.map_cons, List.nodup_cons]
            refine ⟨?_, ihn⟩
            intro hmem
            exact (ihs _ hmem) (List.mem_cons_self _ _)
          · intro s hsmem hseen
            simp only [List.map_cons, List.mem_cons] at hsmem
            rcases hsmem with h | h
            · subst h
              exact hs (List.elem_iff.mpr hseen)
            · exact (ihs s h) (List.mem_cons_of_mem _ hseen)
      · rw [if_pos (by simp [hv])]
        exact ih seen

/-- C8: the list LegalNER.predict returns has at most 50 entities, is
sorted by non-increasing score, contains no two entities whose cleaned
texts agree ignoring case, and every returned text has at least two
characters and contains a letter. -/
theorem C8_predict_shape (entities_raw : List RawEntity) (text : String) :
    (predict entities_raw text).length ≤ 50 ∧
    List.Sorted (fun a b => b.score ≤ a.score) (predict entities_raw text) ∧
    ((predict entities_raw text).map (fun e => pyLower e.text)).Nodup ∧
    ∀ e ∈ predict entities_raw text,
      2 ≤ e.text.length ∧ ∃ c ∈ e.text.toList, c.isAlpha = true := by
  have hperm : ((predictFilter text
      (merge_subword_entities entities_raw text) []).mergeSort
        (fun a b => decide (b.score ≤ a.score))).Perm
      (predictFilter text (merge_subword_entities entities_raw text) []) :=
    List.mergeSort_perm _ _
  refine ⟨?_, ?_, ?_, ?_⟩
  · simpa [predict] using List.length_take_le 50 _
  · have hsorted := @List.sorted_mergeSort OutEntity
      (fun a b => decide (b.score ≤ a.score))
      (fun a b c hab hbc =>
        decide_eq_true
          (le_trans (of_decide_eq_true hbc) (of_decide_eq_true hab)))
      (fun a b => by
        rcases le_total a.score b.score with h | h
        · simp [h]
        · simp [h])
      (predictFilter text (merge_subword_entities entities_raw text) [])
    have hsorted' : List.Sorted (fun a b : OutEntity => b.score ≤ a.score)
        ((predictFilter text
          (merge_subword_entities entities_raw text) []).mergeSort
            (fun a b => decide (b.score ≤ a.score))) :=
      hsorted.imp (fun h => of_decide_eq_true h)
    exact List.Pairwise.sublist (List.take_sublist 50 _) hsorted'
  · have hnodup := (predictFilter_nodup text
      (merge_subword_entities entities_raw text) []).1
    have hnodup' := ((hperm.map (fun e => pyLower e.text)).nodup_iff).mpr hnodup
    rw [predict, List.map_take]
    exact (List.take_sublist 50 _).nodup hnodup'
  · intro e he
    have hmem : e ∈ predictFilter text
        (merge_subword_entities entities_raw text) [] := by
      refine hperm.mem_iff.mp ?_
      exact List.take_subset 50 _ he
    have hvalid := predictFilter_valid text
      (merge_subword_entities entities_raw text) [] e hmem
    obtain ⟨hlen, halpha⟩ := is_valid_entity_facts e.text e.type hvalid
    have hsub := pyStrip_toList_sublist e.text
    constructor
    · calc 2 ≤ (pyStrip e.text).length := hlen
        _ ≤ e.text.length := hsub.length_le
    · obtain ⟨c, hc, hca⟩ := List.any_eq_true.mp halpha
      exact ⟨c, hsub.subset hc, hca⟩

/-! ## C9 -/

theorem innerStep_fst (sim : Nat → Nat → ℚ) (i : Nat)
    (s : (Nat → Nat → ℚ) × List (Nat × Nat)) (j a b : Nat) :
    ((innerStep sim i s j).1) a b =
      if (a = i ∧ b = j) ∨ (b = i ∧ a = j) then
        (if a = b then 1 else if a = i then sim i b else sim i a)
      else s.1 a b := by
  by_cases hij : i = j
  · subst hij
    simp only [innerStep, if_pos rfl]
    by_cases hai : a = i <;> by_cases hbi : b = i <;> simp_all [matUpd]
  · simp only [innerStep, if_neg hij]
    by_cases hai : a = i <;> by_cases hbj : b = j <;> by_cases hbi : b = i <;>
      by_cases haj : a = j <;> simp_all [matUpd]

theorem innerFold_fst (sim : Nat → Nat → ℚ) (i : Nat) (js : List Nat) :
    ∀ (s : (Nat → Nat → ℚ) × List (Nat × Nat)) (a b : Nat),
      ((js.foldl (innerStep sim i) s).1) a b =
        if (a = i ∧ b ∈ js) ∨ (b = i ∧ a ∈ js) then
          (if a = b then 1 else if a = i then sim i b else sim i a)
        else s.1 a b := by
  induction js with
  | nil => intro s a b; simp
  | cons j t ih =>
      intro s a b
      rw [List.foldl_cons, ih]
      by_cases hct : (a = i ∧ b ∈ t) ∨ (b = i ∧ a ∈ t)
      · have hcc : (a = i ∧ b ∈ j :: t) ∨ (b = i ∧ a ∈ j :: t) := by
          rcases hct with ⟨h1, h2⟩ | ⟨h1, h2⟩
          · exact Or.inl ⟨h1, List.mem_cons_of_mem _ h2⟩
          · exact Or.inr ⟨h1, List.mem_cons_of_mem _ h2⟩
        rw [if_pos hct, if_pos hcc]
      · rw [if_neg hct, innerStep_fst]
        by_cases hj : (a = i ∧ b = j) ∨ (b = i ∧ a = j)
        · have hcc : (a = i ∧ b ∈ j :: t) ∨ (b = i ∧ a ∈ j :: t) := by
            rcases hj with ⟨h1, h2⟩ | ⟨h1, h2⟩
            · exact Or.inl ⟨h1, h2 ▸ List.mem_cons_self _ _⟩
            · exact Or.inr ⟨h1, h2 ▸ List.mem_cons_self _ _⟩
          rw [if_pos hj, if_pos hcc]
        · have hcc : ¬ ((a = i ∧ b ∈ j :: t) ∨ (b = i ∧ a ∈ j :: t)) := by
            rintro (⟨h1, h2⟩ | ⟨h1, h2⟩)
            · rcases List.mem_cons.mp h2 with h | h
              · exact hj (Or.inl ⟨h1, h⟩)
              · exact hct (Or.inl ⟨h1, h⟩)
            · rcases List.mem_cons.mp h2 with h | h
              · exact hj (Or.inr ⟨h1, h⟩)
              · exact hct (Or.inr ⟨h1, h⟩)
          rw [if_neg hj, if_neg hcc]

theorem innerFold_snd (sim : Nat → Nat → ℚ) (i : Nat) (js : List Nat) :
    ∀ (s : (Nat → Nat → ℚ) × List (Nat × Nat)),
      ((js.foldl (innerStep sim i) s).2) =
        s.2 ++ (js.filter (fun j => decide (¬ i = j))).map (fun j => (i, j)) := by
  induction js with
  | nil => intro s; simp
  | cons j t ih =>
      intro s
      rw [List.foldl_cons, ih]
      by_cases hij : i = j
      · subst hij
        simp [innerStep, List.filter_cons]
      · simp [innerStep, hij, List.filter_cons]

theorem outerFold_fst (sim : Nat → Nat → ℚ) (n : Nat) (is : List Nat) :
    ∀ (s : (Nat → Nat → ℚ) × List (Nat × Nat)) (a b : Nat),
      (∀ i ∈ is, i < n) →
      ((is.foldl (fun s i => innerLoop sim n i s) s).1) a b =
        if ∃ i ∈ is, (a = i ∧ i ≤ b ∧ b < n) ∨ (b = i ∧ i ≤ a ∧ a < n) then
          (if a = b then 1 else sim (min a b) (max a b))
        else s.1 a b := by
  induction is with
  | nil => intro s a b _; simp
  | cons i t ih =>
      intro s a b his
      have hi : i < n := his i (List.mem_cons_self _ _)
      rw [List.foldl_cons,
        ih _ a b (fun i' hi' => his i' (List.mem_cons_of_mem _ hi'))]
      have hmem : ∀ x : Nat, x ∈ List.range' i (n - i) ↔ i ≤ x ∧ x < n := by
        intro x
        rw [List.mem_range'_1]
        omega
      by_cases hct : ∃ i' ∈ t,
          (a = i' ∧ i' ≤ b ∧ b < n) ∨ (b = i' ∧ i' ≤ a ∧ a < n)
      · have hcc : ∃ i' ∈ i :: t,
            (a = i' ∧ i' ≤ b ∧ b < n) ∨ (b = i' ∧ i' ≤ a ∧ a < n) := by
          obtain ⟨i', hi', hto⟩ := hct
          exact ⟨i', List.mem_cons_of_mem _ hi', hto⟩
        rw [if_pos hct, if_pos hcc]
      · rw [if_neg hct]
        show ((innerLoop sim n i s).1) a b = _
        rw [innerLoop, innerFold_fst]
        by_cases hj : (a = i ∧ b ∈ List.range' i (n - i))
            ∨ (b = i ∧ a ∈ List.range' i (n - i))
        · have hcc : ∃ i' ∈ i :: t,
              (a = i' ∧ i' ≤ b ∧ b < n) ∨ (b = i' ∧ i' ≤ a ∧ a < n) := by
            refine ⟨i, List.mem_cons_self _ _, ?_⟩
            rcases hj with ⟨h1, h2⟩ | ⟨h1, h2⟩
            · exact Or.inl ⟨h1, (hmem b).mp h2⟩
            · exact Or.inr ⟨h1, (hmem a).mp h2⟩
          rw [if_pos hj, if_pos hcc]
          rcases hj with ⟨h1, h2⟩ | ⟨h1, h2⟩
          · rw [hmem] at h2
            subst h1
            by_cases hab : a = b
            · rw [if_pos hab, if_pos hab]
            · have hlt : a < b := lt_of_le_of_ne h2.1 hab
              rw [if_neg hab, if_neg hab, if_pos rfl,
                min_eq_left (le_of_lt hlt), max_eq_right (le_of_lt hlt)]
          · rw [hmem] at h2
            subst h1
            by_cases hab : a = b
            · rw [if_pos hab, if_pos hab]
            · have hlt : b < a := lt_of_le_of_ne h2.1 (fun h => hab h.symm)
              rw [if_neg hab, if_neg hab,
                if_neg (fun h : a = b => hab h),
                min_eq_right (le_of_lt hlt), max_eq_left (le_of_lt hlt)]
        · have hcc : ¬ ∃ i' ∈ i :: t,
              (a = i' ∧ i' ≤ b ∧ b < n) ∨ (b = i' ∧ i' ≤ a ∧ a < n) := by
            rintro ⟨i', hi', hto⟩
            rcases List.mem_cons.mp hi' with h | h
            · subst h
              rcases hto with ⟨h1, h2, h3⟩ | ⟨h1, h2, h3⟩
              · exact hj (Or.inl ⟨h1, (hmem b).mpr ⟨h2, h3⟩⟩)
              · exact hj (Or.inr ⟨h1, (hmem a).mpr ⟨h2, h3⟩⟩)
            · exact hct ⟨i', h, hto⟩
          rw [if_neg hj, if_neg hcc]

theorem outerFold_snd (sim : Nat → Nat → ℚ) (n : Nat) (is : List Nat) :
    ∀ (s : (Nat → Nat → ℚ) × List (Nat × Nat)),
      ((is.foldl (fun s i => innerLoop sim n i s) s).2) =
        s.2 ++ is.flatMap (fun i =>
          ((List.range' i (n - i)).filter (fun j => decide (¬ i = j))).map
            (fun j => (i, j))) := by
  induction is with
  | nil => intro s; simp
  | cons i t ih =>
      intro s
      rw [List.foldl_cons, ih]
      show (innerLoop sim n i s).2 ++ _ = _
      rw [innerLoop, innerFold_snd, List.flatMap_cons, List.append_assoc]

theorem countP_eq_one_of_nodup_mem {α : Type} [DecidableEq α]
    (l : List α) (a : α) (hn : l.Nodup) (ha : a ∈ l) :
    l.countP (fun x => decide (x = a)) = 1 := by
  induction l with
  | nil => simp at ha
  | cons x t ih =>
      rw [List.countP_cons]
      rcases List.mem_cons.mp ha with h | h
      · subst h
        have hz : t.countP (fun y => decide (y = a)) = 0 := by
          rw [List.countP_eq_zero]
          intro y hy
          simp only [decide_eq_true_eq]
          rintro rfl
          exact (List.nodup_cons.mp hn).1 hy
        simp [hz]
      · have hne : ¬ x = a := by
          rintro rfl
          exact (List.nodup_cons.mp hn).1 h
        rw [ih (List.nodup_cons.mp hn).2 h]
        simp [hne]

/-- C9: the similarity matrix returned by POST /analyze/clauses/compare
is n-by-n, symmetric, carries exactly 1.0 on the diagonal, and each
unordered off-diagonal pair triggers exactly one comparator call. -/
theorem C9_compare_matrix (cmp : String → String → PyDict)
    (clauses : List String) :
    ((compare_clauses_batch cmp clauses).1).length = clauses.length ∧
    (∀ row ∈ (compare_clauses_batch cmp clauses).1,
      row.length = clauses.length) ∧
    (∀ a b, a < clauses.length → b < clauses.length →
      (((compare_clauses_batch cmp clauses).1.getD a []).getD b 0)
        = (((compare_clauses_batch cmp clauses).1.getD b []).getD a 0)) ∧
    (∀ a, a < clauses.length →
      (((compare_clauses_batch cmp clauses).1.getD a []).getD a 0) = 1) ∧
    (∀ i j, i < j → j < clauses.length →
      ((compare_clauses_batch cmp clauses).2.countP
        (fun p => decide (p = (i, j)))) = 1) ∧
    (∀ p ∈ (compare_clauses_batch cmp clauses).2,
      p.1 < p.2 ∧ p.2 < clauses.length) := by
  set n := clauses.length with hn
  have hM1 : (compare_clauses_batch cmp clauses).1 =
      (List.range n).map (fun i => (List.range n).map
        (fun j => (compareLoops (simOf cmp clauses) n).1 i j)) := rfl
  have hM2 : (compare_clauses_batch cmp clauses).2 =
      (compareLoops (simOf cmp clauses) n).2 := rfl
  have hF : ∀ a b, a < n → b < n →
      (compareLoops (simOf cmp clauses) n).1 a b =
        (if a = b then 1 else simOf cmp clauses (min a b) (max a b)) := by
    intro a b ha hb
    rw [compareLoops, outerFold_fst (simOf cmp clauses) n (List.range n) _ a b
      (fun i hi => List.mem_range.mp hi)]
    have hex : ∃ i ∈ List.range n,
        (a = i ∧ i ≤ b ∧ b < n) ∨ (b = i ∧ i ≤ a ∧ a < n) := by
      rcases le_total a b with h | h
      · exact ⟨a, List.mem_range.mpr ha, Or.inl ⟨rfl, h, hb⟩⟩
      · exact ⟨b, List.mem_range.mpr hb, Or.inr ⟨rfl, h, ha⟩⟩
    rw [if_pos hex]
  have hentry : ∀ a b, a < n → b < n →
      (((compare_clauses_batch cmp clauses).1.getD a []).getD b 0)
        = (compareLoops (simOf cmp clauses) n).1 a b := by
    intro a b ha hb
    rw [hM1]
    simp [List.getD_eq_getElem?_getD, List.getElem?_map,
      List.getElem?_range ha, List.getElem?_range hb]
  have hcalls : (compare_clauses_batch cmp clauses).2 =
      (List.range n).flatMap (fun i =>
        ((List.range' i (n - i)).filter (fun j => decide (¬ i = j))).map
          (fun j => (i, j))) := by
    rw [hM2, compareLoops, outerFold_snd]
    simp
  have hmemcalls : ∀ p : Nat × Nat,
      p ∈ (compare_clauses_batch cmp clauses).2 ↔
        (p.1 < p.2 ∧ p.2 < n) := by
    intro p
    rw [hcalls, List.mem_flatMap]
    constructor
    · rintro ⟨i, hi, hp⟩
      obtain ⟨j, hj, hpj⟩ := List.mem_map.mp hp
      obtain ⟨hjr, hjne⟩ := List.mem_filter.mp hj
      rw [List.mem_range'_1] at hjr
      have hin : i < n := List.mem_range.mp hi
      have hne : ¬ i = j := by simpa using hjne
      subst hpj
      refine ⟨?_, ?_⟩ <;> simp <;> omega
    · rintro ⟨h1, h2⟩
      refine ⟨p.1, List.mem_range.mpr (by omega), ?_⟩
      refine List.mem_map.mpr ⟨p.2, ?_, rfl⟩
      refine List.mem_filter.mpr ⟨?_, by simp; omega⟩
      rw [List.mem_range'_1]
      omega
  have hnodup : ((compare_clauses_batch cmp clauses).2).Nodup := by
    rw [hcalls, List.nodup_flatMap]
    constructor
    · intro i _
      refine List.Nodup.map ?_ (List.Nodup.filter _ (List.nodup_range' _ _))
      intro x y hxy
      simpa using congrArg Prod.snd hxy
    · refine (List.pairwise_lt_range n).imp ?_
      intro i1 i2 hlt p hp1 hp2
      obtain ⟨j1, _, he1⟩ := List.mem_map.mp hp1
      obtain ⟨j2, _, he2⟩ := List.mem_map.mp hp2
      have : i1 = i2 := congrArg Prod.fst (he1.trans he2.symm)
      omega
  refine ⟨?_, ?_, ?_, ?_, ?_, ?_⟩
  · rw [hM1]; simp
  · rw [hM1]
    intro row hrow
    obtain ⟨i, _, hi⟩ := List.mem_map.mp hrow
    rw [← hi]
    simp
  · intro a b ha hb
    rw [hentry a b ha hb, hentry b a hb ha, hF a b ha hb, hF b a hb ha]
    by_cases hab : a = b
    · rw [if_pos hab, if_pos hab.symm]
    · rw [if_neg hab, if_neg (fun h => hab h.symm), min_comm, max_comm]
  · intro a ha
    rw [hentry a a ha ha, hF a a ha ha, if_pos rfl]
  · intro i j hij hjn
    exact countP_eq_one_of_nodup_mem _ _ hnodup
      ((hmemcalls (i, j)).mpr ⟨hij, hjn⟩)
  · intro p hp
    exact (hmemcalls p).mp hp

theorem C9_compare_matrix_witness :
    (((compare_clauses_batch cmp0 ["clause a", "clause b"]).1.getD 0 []).getD 1 0)
      = (((compare_clauses_batch cmp0 ["clause a", "clause b"]).1.getD 1 []).getD 0 0) ∧
    (((compare_clauses_batch cmp0 ["clause a", "clause b"]).1.getD 0 []).getD 0 0) = 1 ∧
    ((compare_clauses_batch cmp0 ["clause a", "clause b"]).2.countP
      (fun p => decide (p = (0, 1)))) = 1 :=
  ⟨(C9_compare_matrix cmp0 ["clause a", "clause b"]).2.2.1 0 1
      (by decide) (by decide),
   (C9_compare_matrix cmp0 ["clause a", "clause b"]).2.2.2.1 0 (by decide),
   (C9_compare_matrix cmp0 ["clause a", "clause b"]).2.2.2.2.1 0 1
      (by decide) (by decide)⟩

theorem C8_predict_shape_witness :
    outAlice ∈ predict [rawAlice] "Alice signed." ∧
    2 ≤ outAlice.text.length ∧ ∃ c ∈ outAlice.text.toList, c.isAlpha = true := by
  have h1 : predictFilter "Alice signed."
      (merge_subword_entities [rawAlice] "Alice signed.") [] = [outAlice] := by
    decide
  have h2 : predict [rawAlice] "Alice signed." = [outAlice] := by
    show ((predictFilter "Alice signed."
        (merge_subword_entities [rawAlice] "Alice signed.") []).mergeSort
          (fun a b => decide (b.score ≤ a.score))).take 50 = [outAlice]
    rw [h1, List.mergeSort_singleton]
    rfl
  have hmem : outAlice ∈ predict [rawAlice] "Alice signed." := by
    rw [h2]
    exact List.mem_singleton_self _
  exact ⟨hmem,
    (C8_predict_shape [rawAlice] "Alice signed.").2.2.2 outAlice hmem⟩
